import Mathlib

/-!
Verification development for the task library: a shallow embedding of the
signal/slot dispatch core (ArgumentPack, Signal, Connection, SignalSlot
registry), the priority task queue ordering, the Runnable execution contract,
the If control-flow task, and the Counter example task, together with theorems
settling the specified properties.

Conventions of the embedding:
- C++ exceptions become explicit error values (`Except`, `Option`, or outcome
  fields such as `propagatedError`).
- Side effects (signal emissions) become explicit event lists, in emission
  order.
- `std::function` callbacks are identified by a numeric id; invoking a callback
  is recorded as an `Invocation` value.
- `weak_ptr` liveness is an explicit `alive` flag on each stored connection
  reference (true exactly when some strong handle still exists so that
  `lock()` succeeds).
- C++ `int` / `int64_t` are modelled as `Int`; the scenarios considered stay
  far from any overflow boundary.
-/

namespace TaskLib

/-- Tag identifying the C++ static type stored in one ArgumentPack slot
(the `typeid` of the `Holder<T>`). Only the types the verified code paths
store are enumerated. -/
inductive ArgTag
  | tInt
  | tBool
  | tString
  deriving DecidableEq, Repr

/-- A type-erased stored value (the `Holder<T>` contents together with its
dynamic type). -/
inductive ArgValue
  | vInt (n : Int)
  | vBool (b : Bool)
  | vString (s : String)
  deriving DecidableEq, Repr

/-- The dynamic type tag of a stored value. -/
def ArgValue.tag : ArgValue → ArgTag
  | .vInt _ => .tInt
  | .vBool _ => .tBool
  | .vString _ => .tString

/-- Model of `ArgumentPack`: the ordered vector `m_args` of type-erased
holders (include/task/SignalSlot.h). -/
structure ArgumentPack where
  m_args : List ArgValue
  deriving DecidableEq, Repr

/-- `ArgumentPack::size()`. -/
def ArgumentPack.size (p : ArgumentPack) : Nat := p.m_args.length

/-- `ArgumentPack::add<T>(value)`: appends one typed value (push_back). -/
def ArgumentPack.add (p : ArgumentPack) (v : ArgValue) : ArgumentPack :=
  ⟨p.m_args ++ [v]⟩

/-- The two exceptions `ArgumentPack::get<T>` can raise:
`std::out_of_range` and `std::bad_cast`. -/
inductive GetError
  | outOfRange
  | badCast
  deriving DecidableEq, Repr

/-- Model of `ArgumentPack::get<T>(index)`
(include/task/inline/SignalSlot.hxx, lines 47-67): first the bounds check
(`index >= m_args.size()` raises out_of_range), then the `dynamic_cast` to
`Holder<T>` (mismatching dynamic type raises bad_cast), otherwise the stored
value is returned unchanged. -/
def ArgumentPack.get (p : ArgumentPack) (t : ArgTag) (i : Nat) :
    Except GetError ArgValue :=
  if h : p.m_args.length ≤ i then
    .error .outOfRange
  else
    let v := p.m_args.get ⟨i, Nat.lt_of_not_le h⟩
    if v.tag = t then .ok v else .error .badCast

/-- Record of one callback invocation performed during an emission.
Callbacks (`std::function` values) are identified by a numeric id; a data
slot receives the ArgumentPack it was called with. -/
inductive Invocation
  | simple (id : Nat)
  | data (id : Nat) (args : ArgumentPack)
  deriving DecidableEq, Repr

/-- Model of `Signal::Connection`
(include/task/SignalSlot.h + include/task/inline/SignalSlot.hxx).
`hasSimpleSlot` / `hasDataSlot` record whether the corresponding
`std::function` member is non-null; `m_signalAttached` records whether the
`m_signal` back-pointer is non-null (it is cleared on disconnect). -/
structure Connection where
  id : Nat
  hasSimpleSlot : Bool
  hasDataSlot : Bool
  m_connected : Bool
  m_signalAttached : Bool
  m_takesArguments : Bool
  deriving DecidableEq, Repr

/-- The `Connection(Signal*, SimpleSlotFunction)` constructor
(SignalSlot.hxx lines 81-84): simple slot set, data slot null,
connected = true, takesArguments = false. -/
def Connection.mkSimple (id : Nat) : Connection :=
  ⟨id, true, false, true, true, false⟩

/-- The `Connection(Signal*, DataSlotFunction)` constructor
(SignalSlot.hxx lines 86-88): simple slot null, data slot set,
connected = true, takesArguments = true. -/
def Connection.mkData (id : Nat) : Connection :=
  ⟨id, false, true, true, true, true⟩

/-- `Connection::disconnect()` (SignalSlot.hxx lines 90-95): a
compare-and-swap on `m_connected`; only the call that observes `true`
flips it to `false` and clears the `m_signal` back-pointer. -/
def Connection.disconnect (c : Connection) : Connection :=
  if c.m_connected then
    { c with m_connected := false, m_signalAttached := false }
  else
    c

/-- `Connection::connected()`. -/
def Connection.connected (c : Connection) : Bool := c.m_connected

/-- `Connection::call()` (SignalSlot.hxx lines 99-110): if still connected,
a data slot is called with a fresh empty ArgumentPack, otherwise the simple
slot (when present) is called; a disconnected connection is a no-op. -/
def Connection.callNoArgs (c : Connection) : Option Invocation :=
  if c.m_connected then
    if c.m_takesArguments then
      some (.data c.id ⟨[]⟩)
    else if c.hasSimpleSlot then
      some (.simple c.id)
    else
      none
  else
    none

/-- `Connection::call(const ArgumentPack&)` (SignalSlot.hxx lines 112-122):
if still connected, a data slot receives the provided args, otherwise the
simple slot (when present) is called ignoring the arguments. -/
def Connection.callWithArgs (c : Connection) (args : ArgumentPack) :
    Option Invocation :=
  if c.m_connected then
    if c.m_takesArguments && c.hasDataSlot then
      some (.data c.id args)
    else if c.hasSimpleSlot then
      some (.simple c.id)
    else
      none
  else
    none

/-- One entry of `Signal::m_connections`: a `weak_ptr<Connection>`.
`alive` is true exactly when a strong handle to the connection still exists,
i.e. when `lock()` succeeds. -/
structure WeakConnection where
  conn : Connection
  alive : Bool
  deriving DecidableEq, Repr

/-- Model of `Signal`: the stored vector of weak connection references, in
registration (push_back) order. -/
structure Signal where
  m_connections : List WeakConnection
  deriving DecidableEq, Repr

/-- `SyncPolicy` (include/task/SignalSlot.h). -/
inductive SyncPolicy
  | direct
  | blocking
  deriving DecidableEq, Repr

/-- The snapshot built by `Signal::getActiveConnections()`
(SignalSlot.hxx lines 185-205): under the lock, each weak reference is
promoted; entries whose promotion fails or whose connection is disconnected
are skipped (and erased from storage), the rest are collected in order. -/
def Signal.getActiveConnections (s : Signal) : List Connection :=
  (s.m_connections.filter (fun w => w.alive && w.conn.m_connected)).map
    (fun w => w.conn)

/-- The lazy-cleanup side effect of `Signal::getActiveConnections()`: dead
or disconnected weak references are erased from `m_connections`. -/
def Signal.pruneDead (s : Signal) : Signal :=
  ⟨s.m_connections.filter (fun w => w.alive && w.conn.m_connected)⟩

/-- `Signal::emit(SyncPolicy)` (SignalSlot.hxx lines 207-223): take the
active-connections snapshot, then call every entry in order outside the
lock; the Direct and Blocking branches run the same loop. Returns the
invocations performed, in order. -/
def Signal.emitNoArgs (s : Signal) (policy : SyncPolicy) : List Invocation :=
  let activeConnections := s.getActiveConnections
  match policy with
  | .direct => activeConnections.filterMap Connection.callNoArgs
  | .blocking => activeConnections.filterMap Connection.callNoArgs

/-- `Signal::emit(const ArgumentPack&, SyncPolicy)`
(SignalSlot.hxx lines 225-241). -/
def Signal.emitWithArgs (s : Signal) (args : ArgumentPack)
    (policy : SyncPolicy) : List Invocation :=
  let activeConnections := s.getActiveConnections
  match policy with
  | .direct => activeConnections.filterMap (fun c => c.callWithArgs args)
  | .blocking => activeConnections.filterMap (fun c => c.callWithArgs args)

/-- `Signal::connect(Func&&)` (SignalSlot.hxx lines 124-148): build a
simple or data connection according to whether the callable accepts an
ArgumentPack (decided at compile time by `detail::takes_argument_pack`),
push it onto `m_connections`, and return the strong handle. -/
def Signal.connectSlot (s : Signal) (id : Nat) (takesArgumentPack : Bool) :
    Connection × Signal :=
  let c := if takesArgumentPack then Connection.mkData id
           else Connection.mkSimple id
  (c, ⟨s.m_connections ++ [⟨c, true⟩]⟩)

/-- `Signal::connect(T*, void (T::*)())` (SignalSlot.hxx lines 150-164):
a null instance or null method returns a null handle without touching
`m_connections`; otherwise a simple connection is stored and returned.
The two Booleans record whether the respective pointer is non-null. -/
def Signal.connectMemberSimple (s : Signal) (instanceNonNull : Bool)
    (methodNonNull : Bool) (id : Nat) : Option Connection × Signal :=
  if !instanceNonNull || !methodNonNull then
    (none, s)
  else
    let c := Connection.mkSimple id
    (some c, ⟨s.m_connections ++ [⟨c, true⟩]⟩)

/-- `Signal::connect(T*, void (T::*)(const ArgumentPack&))`
(SignalSlot.hxx lines 166-183): same null checks, storing a data
connection. -/
def Signal.connectMemberData (s : Signal) (instanceNonNull : Bool)
    (methodNonNull : Bool) (id : Nat) : Option Connection × Signal :=
  if !instanceNonNull || !methodNonNull then
    (none, s)
  else
    let c := Connection.mkData id
    (some c, ⟨s.m_connections ++ [⟨c, true⟩]⟩)

/-- Well-formedness shared by every connection the two `Connection`
constructors can build: the slot matching `m_takesArguments` is non-null. -/
def Connection.wf (c : Connection) : Prop :=
  (c.m_takesArguments = true → c.hasDataSlot = true) ∧
  (c.m_takesArguments = false → c.hasSimpleSlot = true)

instance (c : Connection) : Decidable c.wf := by
  unfold Connection.wf
  infer_instance

/-- Model of the `SignalSlot` registry: the name-keyed map `m_signals`
(include/task/SignalSlot.h). Keys are unique (`createSignal` refuses
duplicates), so an association list looked up by first match is faithful. -/
structure SignalSlot where
  m_signals : List (String × Signal)
  deriving DecidableEq, Repr

/-- `SignalSlot::getSignal(name)` (SignalSlot.hxx lines 356-369): look the
name up; when absent, a "not found" line is logged and null is returned. -/
def SignalSlot.getSignal (r : SignalSlot) (name : String) : Option Signal :=
  match r.m_signals.find? (fun p => p.fst == name) with
  | none => none
  | some p => some p.snd

/-- Result of a registry-level emit: the invocations performed, plus whether
the "Signal not found" log line was written by `getSignal`. -/
structure NamedEmitResult where
  invocations : List Invocation
  notFoundLogged : Bool
  deriving DecidableEq, Repr

/-- `SignalSlot::emit(name, policy)` (SignalSlot.hxx lines 329-335): absent
name logs and is a no-op; otherwise the named Signal emits without
arguments. -/
def SignalSlot.emitNoArgsByName (r : SignalSlot) (name : String)
    (policy : SyncPolicy) : NamedEmitResult :=
  match r.getSignal name with
  | none => ⟨[], true⟩
  | some s => ⟨s.emitNoArgs policy, false⟩

/-- `SignalSlot::emit(name, args, policy)` (SignalSlot.hxx lines 337-344). -/
def SignalSlot.emitWithArgsByName (r : SignalSlot) (name : String)
    (args : ArgumentPack) (policy : SyncPolicy) : NamedEmitResult :=
  match r.getSignal name with
  | none => ⟨[], true⟩
  | some s => ⟨s.emitWithArgs args policy, false⟩

/-- Result of a registry-level connect: the handle (null when the signal is
absent), the updated registry, and whether the "not found" line was
logged. -/
structure NamedConnectResult where
  handle : Option Connection
  registry : SignalSlot
  notFoundLogged : Bool
  deriving DecidableEq, Repr

/-- `SignalSlot::connect(name, slot)` (SignalSlot.hxx lines 292-300): absent
name logs and returns null without changing anything; otherwise the slot is
connected on the named Signal. -/
def SignalSlot.connectByName (r : SignalSlot) (name : String) (id : Nat)
    (takesArgumentPack : Bool) : NamedConnectResult :=
  match r.getSignal name with
  | none => ⟨none, r, true⟩
  | some s =>
      let cs := s.connectSlot id takesArgumentPack
      ⟨some cs.fst,
       ⟨r.m_signals.map (fun p => if p.fst == name then (p.fst, cs.snd) else p)⟩,
       false⟩

/-- `TaskPriority` (include/task/TaskQueue.h lines 38-44). -/
inductive TaskPriority
  | CRITICAL
  | HIGH
  | NORMAL
  | LOW
  | BACKGROUND
  deriving DecidableEq, Repr

/-- The numeric value of each enumerator (CRITICAL = 0 … BACKGROUND = 4);
`operator>` on the enum compares these. -/
def TaskPriority.toOrdinal : TaskPriority → Nat
  | .CRITICAL => 0
  | .HIGH => 1
  | .NORMAL => 2
  | .LOW => 3
  | .BACKGROUND => 4

/-- Model of `TaskEntry` (src/TaskQueue.cxx lines 37-53): the queued
runnable is identified by `taskId`. -/
structure TaskEntry where
  taskId : Nat
  priority : TaskPriority
  enqueueTime : Int
  description : String
  deriving DecidableEq, Repr

/-- `TaskEntry::operator<` (src/TaskQueue.cxx lines 44-52): compare by
priority first (a lower enum value is the higher priority, so the greater
enum value is "less"); on equal priorities the later enqueue time is
"less". -/
def TaskEntry.lt (a b : TaskEntry) : Bool :=
  if a.priority ≠ b.priority then
    decide (a.priority.toOrdinal > b.priority.toOrdinal)
  else
    decide (a.enqueueTime > b.enqueueTime)

/-- `e` is a value `std::priority_queue<TaskEntry>::top()` may return on
queue `q`: an element of `q` that is not `operator<` any element of `q`
(the heap's maximum under the strict weak order). `processQueue`
(src/TaskQueue.cxx lines 271-273) dispatches exactly `top()`. -/
def TaskEntry.canBeTop (q : List TaskEntry) (e : TaskEntry) : Prop :=
  e ∈ q ∧ ∀ x ∈ q, TaskEntry.lt e x = false

/-- The element kept when the heap compares an accumulated maximum against
one more entry. -/
def TaskEntry.keepTop (a x : TaskEntry) : TaskEntry :=
  if TaskEntry.lt a x then x else a

/-- A deterministic refinement of `top()`: fold the queue keeping a maximal
element (ties resolved towards the earlier-listed entry). -/
def TaskEntry.queueTop : List TaskEntry → Option TaskEntry
  | [] => none
  | e :: es => some (es.foldl TaskEntry.keepTop e)

/-- Outcome of one call to the user-supplied work function
(`Runnable::runImpl` / the `If` predicate): normal return, a thrown
`std::exception` carrying `what()`, or a thrown non-`std::exception`
value. -/
inductive WorkResult
  | ok
  | throwStd (what : String)
  | throwUnknown
  deriving DecidableEq, Repr

/-- The mutable state of a `Runnable`
(include/task/concurrent/Runnable.h). -/
structure RunnableState where
  m_isRunning : Bool
  m_stopRequested : Bool
  deriving DecidableEq, Repr

/-- One signal emission performed by `Runnable::run`: signal name plus the
optional string payload of `emitString`. -/
structure Emission where
  signal : String
  payload : Option String
  deriving DecidableEq, Repr

/-- Everything observable about one synchronous `run()` call: the state it
leaves behind, the emissions it performed in order, and the exception (if
any) escaping `run()` to its caller. -/
structure RunResult where
  state : RunnableState
  emissions : List Emission
  propagatedError : Option String
  deriving DecidableEq, Repr

/-- Model of `Runnable::run()` (src/concurrent/Runnable.cxx lines 31-59):
when already running, warn and return; otherwise clear the stop flag, mark
running, emit "started", run `runImpl`, catching `std::exception` (emitting
"error" with `what()`) and anything else (emitting "error" with the generic
description); in every case mark not-running and emit "finished". Neither
catch clause re-throws, so `run()` always returns normally. -/
def Runnable.run (st : RunnableState) (work : WorkResult) : RunResult :=
  if st.m_isRunning then
    { state := st,
      emissions := [⟨"warn", some "Task is already running"⟩],
      propagatedError := none }
  else
    let errorEmissions : List Emission :=
      match work with
      | .ok => []
      | .throwStd what => [⟨"error", some what⟩]
      | .throwUnknown =>
          [⟨"error", some "Unknown exception during task execution"⟩]
    { state := { m_isRunning := false, m_stopRequested := false },
      emissions := [⟨"started", none⟩] ++ errorEmissions ++
                   [⟨"finished", none⟩],
      propagatedError := none }

/-- The possible outcomes of evaluating the `If` predicate
(`m_condition(args)` in src/If.cxx line 100). -/
inductive CondOutcome
  | ok (value : Bool)
  | throwStd (what : String)
  | throwUnknown
  deriving DecidableEq, Repr

/-- Everything observable about one `If::execute(args)` call: the If task's
own emissions in order (signal name with ArgumentPack payload), whether the
then / else branch task was invoked (its `exec`/`run` called), and whether
an exception escaped `execute()` to the caller. -/
structure IfOutcome where
  events : List (String × List ArgValue)
  thenBranchInvoked : Bool
  elseBranchInvoked : Bool
  propagatedNonStd : Bool
  deriving DecidableEq, Repr

/-- The events `If::execute` emits after the condition evaluated to `b`,
before the branch dispatch (src/If.cxx lines 101-114). -/
def If.selectionEvents (b : Bool) : List (String × List ArgValue) :=
  [("conditionEvaluated", []),
   ("branchSelected",
     [ArgValue.vBool b, ArgValue.vString (if b then "then" else "else")]),
   ("log",
     [ArgValue.vString
       ("Condition evaluated to " ++ (if b then "true" else "false") ++
        ", executing " ++ (if b then "then" else "else") ++ " branch")])]

/-- Model of `If::execute(args)` (src/If.cxx lines 95-181). `hasThen` /
`hasElse` record whether a branch task is registered; `thenInvocable` /
`elseInvocable` record whether the registered task downcasts to
`Algorithm*` or `Runnable*` (only then is its `exec`/`run` called; a plain
`Task` branch is selected but nothing is invoked). The branch task's own
"started"/"finished" emissions happen on the child task object and are not
part of the If task's event list. The one catch clause handles
`const std::exception&` only, emitting "error"; there is no catch-all, so a
non-`std::exception` throw from the predicate escapes `execute()` before
the final "finished" emission. -/
def If.execute (hasThen hasElse thenInvocable elseInvocable : Bool)
    (cond : CondOutcome) : IfOutcome :=
  let started : String × List ArgValue := ("started", [])
  let finished : String × List ArgValue := ("finished", [])
  match cond with
  | .ok b =>
      let pre := [started] ++ If.selectionEvents b
      if b then
        if hasThen then
          { events := pre ++ [("thenExecuted", [])] ++ [finished],
            thenBranchInvoked := thenInvocable,
            elseBranchInvoked := false,
            propagatedNonStd := false }
        else
          { events := pre ++
              [("warn",
                 [ArgValue.vString "No task defined for the 'then' branch"]),
               ("noBranchExecuted", [])] ++ [finished],
            thenBranchInvoked := false,
            elseBranchInvoked := false,
            propagatedNonStd := false }
      else
        if hasElse then
          { events := pre ++ [("elseExecuted", [])] ++ [finished],
            thenBranchInvoked := false,
            elseBranchInvoked := elseInvocable,
            propagatedNonStd := false }
        else
          { events := pre ++
              [("log",
                 [ArgValue.vString
                   "No task defined for the 'else' branch, nothing to execute"]),
               ("noBranchExecuted", [])] ++ [finished],
            thenBranchInvoked := false,
            elseBranchInvoked := false,
            propagatedNonStd := false }
  | .throwStd what =>
      { events := [started,
                   ("error", [ArgValue.vString ("Error in If task: " ++ what)]),
                   finished],
        thenBranchInvoked := false,
        elseBranchInvoked := false,
        propagatedNonStd := false }
  | .throwUnknown =>
      { events := [started],
        thenBranchInvoked := false,
        elseBranchInvoked := false,
        propagatedNonStd := true }

/-- Model of `Counter` (include/task/Counter.h): current value, remembered
initial value, optional bounds. -/
structure Counter where
  m_value : Int
  m_initialValue : Int
  m_minValue : Option Int
  m_maxValue : Option Int
  deriving DecidableEq, Repr

/-- An emission performed by Counter code: signal name with ArgumentPack
payload, matching src/Counter.cxx. -/
abbrev CounterEvent := String × List ArgValue

/-- `Counter::isInRange(value)` (src/Counter.cxx lines 189-197). -/
def Counter.isInRange (c : Counter) (value : Int) : Bool :=
  if (match c.m_minValue with
      | some m => decide (value < m)
      | none => false) then
    false
  else if (match c.m_maxValue with
           | some m => decide (value > m)
           | none => false) then
    false
  else
    true

/-- `Counter::isAtMinimum()` (src/Counter.cxx lines 133-135). -/
def Counter.isAtMinimum (c : Counter) : Bool :=
  match c.m_minValue with
  | some m => decide (c.m_value = m)
  | none => false

/-- `Counter::isAtMaximum()` (src/Counter.cxx lines 137-139). -/
def Counter.isAtMaximum (c : Counter) : Bool :=
  match c.m_maxValue with
  | some m => decide (c.m_value = m)
  | none => false

/-- The out-of-range warning text built by the constructor and `setValue`
(src/Counter.cxx lines 40-48 and 69-77): a stringstream appending
" (min: <m>" when a minimum is set, ", max: <M>" when a maximum is set,
then ")". -/
def Counter.rangeWarning (head : String) (value : Int)
    (minValue maxValue : Option Int) : String :=
  head ++ toString value ++ " is outside allowed range" ++
  (match minValue with
   | some m => " (min: " ++ toString m
   | none => "") ++
  (match maxValue with
   | some m => ", max: " ++ toString m
   | none => "") ++ ")"

/-- `Counter::emitChangeSignals(oldValue, newValue)`
(src/Counter.cxx lines 199-233), evaluated on the post-update counter `c`
(the member reads of `m_value` therefore see `newValue`): nothing when the
value did not change; otherwise "valueChanged" with old and new value plus a
log line, and — when the new value sits on a bound — "limitReached" with
`isAtMinimum()` and the value, plus a second log line. -/
def Counter.emitChangeSignals (c : Counter) (oldValue newValue : Int) :
    List CounterEvent :=
  if oldValue = newValue then
    []
  else
    [("valueChanged", [ArgValue.vInt oldValue, ArgValue.vInt newValue]),
     ("log",
       [ArgValue.vString
         ("Counter value changed from " ++ toString oldValue ++ " to " ++
          toString newValue)])] ++
    (if c.isAtMinimum || c.isAtMaximum then
       [("limitReached", [ArgValue.vBool c.isAtMinimum, ArgValue.vInt c.m_value]),
        ("log",
          [ArgValue.vString
            ("Counter reached " ++
             (if c.isAtMinimum then "minimum" else "maximum") ++
             " value: " ++ toString c.m_value)])]
     else [])

/-- The `Counter` constructor (src/Counter.cxx lines 28-62): store the
initial value; when it is out of range, emit a warning, clamp to the
violated bound (`min` when below it, otherwise `max` when above it), and
overwrite the remembered initial value with the clamped value. -/
def Counter.create (initialValue : Int) (minValue maxValue : Option Int) :
    Counter × List CounterEvent :=
  let c0 : Counter := ⟨initialValue, initialValue, minValue, maxValue⟩
  if c0.isInRange c0.m_value then
    (c0, [])
  else
    let warnEvent : CounterEvent :=
      ("warn",
       [ArgValue.vString
         (Counter.rangeWarning "Initial value " initialValue minValue
           maxValue)])
    let clamped : Int :=
      match minValue with
      | some m =>
          if initialValue < m then m
          else
            match maxValue with
            | some M => if initialValue > M then M else initialValue
            | none => initialValue
      | none =>
          match maxValue with
          | some M => if initialValue > M then M else initialValue
          | none => initialValue
    ({ c0 with m_value := clamped, m_initialValue := clamped }, [warnEvent])

/-- `Counter::setValue(value)` (src/Counter.cxx lines 66-88): out-of-range
values are rejected with a warning and `false`, the value unchanged;
otherwise the value is stored, change signals fire, and `true` is
returned. -/
def Counter.setValue (c : Counter) (value : Int) :
    Bool × Counter × List CounterEvent :=
  if !(c.isInRange value) then
    (false, c,
     [("warn",
       [ArgValue.vString
         (Counter.rangeWarning "Value " value c.m_minValue c.m_maxValue)])])
  else
    let oldValue := c.m_value
    let c2 := { c with m_value := value }
    (true, c2, c2.emitChangeSignals oldValue value)

/-- `Counter::increment(amount)` (src/Counter.cxx lines 90-102): add, clamp
to the maximum when one is set, store, fire change signals, return the new
value. -/
def Counter.increment (c : Counter) (amount : Int) :
    Int × Counter × List CounterEvent :=
  let oldValue := c.m_value
  let newValue0 := c.m_value + amount
  let newValue :=
    match c.m_maxValue with
    | some M => if newValue0 > M then M else newValue0
    | none => newValue0
  let c2 := { c with m_value := newValue }
  (newValue, c2, c2.emitChangeSignals oldValue newValue)

/-- `Counter::decrement(amount)` (src/Counter.cxx lines 104-116). -/
def Counter.decrement (c : Counter) (amount : Int) :
    Int × Counter × List CounterEvent :=
  let oldValue := c.m_value
  let newValue0 := c.m_value - amount
  let newValue :=
    match c.m_minValue with
    | some m => if newValue0 < m then m else newValue0
    | none => newValue0
  let c2 := { c with m_value := newValue }
  (newValue, c2, c2.emitChangeSignals oldValue newValue)

/-- `Counter::reset()` (src/Counter.cxx lines 118-131): restore the
remembered initial value, emit "reset", and fire change signals only when
the value actually changed. -/
def Counter.reset (c : Counter) : Int × Counter × List CounterEvent :=
  let oldValue := c.m_value
  let c2 := { c with m_value := c.m_initialValue }
  (c2.m_value, c2,
   [(("reset", []) : CounterEvent)] ++
   (if oldValue ≠ c2.m_value then c2.emitChangeSignals oldValue c2.m_value
    else []))

/-- The bounded counter of testable property P7: constructed with
initial = 5, min = 0, max = 10 (the construction emits nothing since 5 is
in range). -/
def counterP7 : Counter := (Counter.create 5 (some 0) (some 10)).fst

/-!
## Theorems
-/

/-- C7: for every ArgumentPack `p`, index `i` and requested type `t`,
`get<T>(i)` raises out-of-range exactly when `i >= p.size()`; when `i` is
in range it raises a type-mismatch error exactly when the stored dynamic
type differs from `T`, and otherwise returns the stored value unchanged. -/
theorem argumentPack_get_contract (p : ArgumentPack) (t : ArgTag) (i : Nat) :
    (p.get t i = Except.error GetError.outOfRange ↔ p.size ≤ i) ∧
    (∀ v, p.m_args.get? i = some v → v.tag ≠ t →
      p.get t i = Except.error GetError.badCast) ∧
    (∀ v, p.m_args.get? i = some v → v.tag = t →
      p.get t i = Except.ok v) := by
  unfold ArgumentPack.get ArgumentPack.size
  by_cases hle : p.m_args.length ≤ i
  · rw [dif_pos hle]
    refine ⟨by simp [hle], ?_, ?_⟩ <;>
      · intro v hv
        have : i < p.m_args.length := List.get?_eq_some.mp hv |>.1
        omega
  · rw [dif_neg hle]
    have hlt : i < p.m_args.length := Nat.lt_of_not_le hle
    have hget : p.m_args.get? i = some (p.m_args.get ⟨i, hlt⟩) :=
      List.get?_eq_get hlt
    refine ⟨?_, ?_, ?_⟩
    · constructor
      · intro he
        dsimp only at he
        split at he <;> simp_all
      · intro h; omega
    · intro v hv hne
      rw [hget] at hv
      obtain rfl : v = p.m_args.get ⟨i, hlt⟩ := (Option.some.injEq _ _ ▸ hv).symm
      dsimp only
      rw [if_neg hne]
    · intro v hv heq
      rw [hget] at hv
      obtain rfl : v = p.m_args.get ⟨i, hlt⟩ := (Option.some.injEq _ _ ▸ hv).symm
      dsimp only
      rw [if_pos heq]

/-- Closed check of `argumentPack_get_contract` on the pack holding one Int:
retrieval at index 0 with the right type succeeds, and index 1 is out of
range. -/
theorem argumentPack_get_contract_witness :
    ArgumentPack.get ⟨[ArgValue.vInt 3]⟩ ArgTag.tInt 0 =
      Except.ok (ArgValue.vInt 3) ∧
    ArgumentPack.get ⟨[ArgValue.vInt 3]⟩ ArgTag.tInt 1 =
      Except.error GetError.outOfRange :=
  ⟨(argumentPack_get_contract ⟨[ArgValue.vInt 3]⟩ ArgTag.tInt 0).2.2
      (ArgValue.vInt 3) rfl rfl,
   (argumentPack_get_contract ⟨[ArgValue.vInt 3]⟩ ArgTag.tInt 1).1.mpr
      (by decide)⟩

/-- `TaskPriority.toOrdinal` is injective: distinct enumerators have
distinct numeric values. -/
theorem TaskPriority.toOrdinal_inj :
    ∀ p q : TaskPriority, p.toOrdinal = q.toOrdinal → p = q := by
  intro p q
  cases p <;> cases q <;> decide

/-- `TaskEntry::operator<` is the strict lexicographic order on the pair
(priority ordinal, enqueue time), read descending: `a < b` exactly when
`b`'s key is lexicographically smaller. -/
theorem TaskEntry.lt_iff_ord (a b : TaskEntry) :
    TaskEntry.lt a b = true ↔
      (b.priority.toOrdinal < a.priority.toOrdinal ∨
       (a.priority.toOrdinal = b.priority.toOrdinal ∧
        b.enqueueTime < a.enqueueTime)) := by
  unfold TaskEntry.lt
  by_cases h : a.priority = b.priority
  · rw [if_neg (by simp [h])]
    simp [h]
  · rw [if_pos h]
    have hne : a.priority.toOrdinal ≠ b.priority.toOrdinal := fun hc =>
      h (TaskPriority.toOrdinal_inj _ _ hc)
    simp only [decide_eq_true_eq]
    constructor
    · intro hgt; exact Or.inl hgt
    · rintro (hgt | ⟨heq, _⟩)
      · exact hgt
      · exact absurd heq hne

/-- Negated form of `TaskEntry.lt_iff_ord`. -/
theorem TaskEntry.lt_eq_false_iff (a b : TaskEntry) :
    TaskEntry.lt a b = false ↔
      ¬ (b.priority.toOrdinal < a.priority.toOrdinal ∨
         (a.priority.toOrdinal = b.priority.toOrdinal ∧
          b.enqueueTime < a.enqueueTime)) := by
  rw [← TaskEntry.lt_iff_ord]
  cases h : TaskEntry.lt a b <;> simp

/-- An entry kept by the heap against `x` stays not-less-than anything `x`
was not-less-than: if `a` is not below `b` and `c` is strictly below `b`,
`a` is not below `c`. -/
theorem TaskEntry.lt_false_of_ge_of_lt {a b c : TaskEntry}
    (h1 : TaskEntry.lt a b = false) (h2 : TaskEntry.lt c b = true) :
    TaskEntry.lt a c = false := by
  rw [TaskEntry.lt_eq_false_iff] at h1 ⊢
  rw [TaskEntry.lt_iff_ord] at h2
  omega

/-- Not-less-than is transitive. -/
theorem TaskEntry.lt_false_trans {a b c : TaskEntry}
    (h1 : TaskEntry.lt a b = false) (h2 : TaskEntry.lt b c = false) :
    TaskEntry.lt a c = false := by
  rw [TaskEntry.lt_eq_false_iff] at h1 h2 ⊢
  omega

/-- No entry is below itself. -/
theorem TaskEntry.lt_self (e : TaskEntry) : TaskEntry.lt e e = false := by
  rw [TaskEntry.lt_eq_false_iff]
  omega

/-- The fold computing the heap top yields an element of the queue (or the
seed) that is not `operator<` the seed nor any folded element. -/
theorem TaskEntry.foldl_keepTop_spec (es : List TaskEntry) (e : TaskEntry) :
    (es.foldl TaskEntry.keepTop e = e ∨ es.foldl TaskEntry.keepTop e ∈ es) ∧
    TaskEntry.lt (es.foldl TaskEntry.keepTop e) e = false ∧
    (∀ x ∈ es, TaskEntry.lt (es.foldl TaskEntry.keepTop e) x = false) := by
  induction es generalizing e with
  | nil => exact ⟨Or.inl rfl, TaskEntry.lt_self e, by simp⟩
  | cons x xs ih =>
    rcases ih (TaskEntry.keepTop e x) with ⟨hmem, hacc, hall⟩
    simp only [List.foldl_cons]
    by_cases hex : TaskEntry.lt e x = true
    · have hkeep : TaskEntry.keepTop e x = x := by
        unfold TaskEntry.keepTop; rw [if_pos hex]
      rw [hkeep] at hmem hacc hall ⊢
      refine ⟨?_, ?_, ?_⟩
      · rcases hmem with h | h
        · exact Or.inr (List.mem_cons.mpr (Or.inl h))
        · exact Or.inr (List.mem_cons_of_mem x h)
      · exact TaskEntry.lt_false_of_ge_of_lt hacc hex
      · intro y hy
        rcases List.mem_cons.mp hy with rfl | hy
        · exact hacc
        · exact hall y hy
    · have hexf : TaskEntry.lt e x = false := by
        cases h : TaskEntry.lt e x
        · rfl
        · exact absurd h hex
      have hkeep : TaskEntry.keepTop e x = e := by
        unfold TaskEntry.keepTop; rw [if_neg (by simp [hexf])]
      rw [hkeep] at hmem hacc hall ⊢
      refine ⟨?_, hacc, ?_⟩
      · rcases hmem with h | h
        · exact Or.inl h
        · exact Or.inr (List.mem_cons_of_mem x h)
      · intro y hy
        rcases List.mem_cons.mp hy with rfl | hy
        · exact TaskEntry.lt_false_trans hacc hexf
        · exact hall y hy

/-- Whatever `queueTop` returns is a legitimate `top()` of the priority
queue: an element no other element exceeds. -/
theorem TaskEntry.queueTop_canBeTop (q : List TaskEntry) (e : TaskEntry)
    (h : TaskEntry.queueTop q = some e) : TaskEntry.canBeTop q e := by
  cases q with
  | nil => simp [TaskEntry.queueTop] at h
  | cons a as =>
    simp only [TaskEntry.queueTop, Option.some.injEq] at h
    rcases TaskEntry.foldl_keepTop_spec as a with ⟨hmem, hacc, hall⟩
    subst h
    constructor
    · rcases hmem with h | h
      · exact List.mem_cons.mpr (Or.inl h)
      · exact List.mem_cons_of_mem a h
    · intro x hx
      rcases List.mem_cons.mp hx with rfl | hx
      · exact hacc
      · exact hall x hx

/-- C2: for TaskEntry values A and B, whenever A's priority ordinal is
lower, or the priorities are equal and A's enqueue timestamp is strictly
earlier, the comparison makes B `operator<` A and not conversely, so a
capacity-1 scheduler — which always dispatches a `top()` element, i.e. an
entry no other pending entry exceeds — never dispatches B while A is still
pending: ascending priority ordinal first, then FIFO within a tier. -/
theorem taskEntry_dispatch_order (a b : TaskEntry) (q : List TaskEntry)
    (h : a.priority.toOrdinal < b.priority.toOrdinal ∨
         (a.priority = b.priority ∧ a.enqueueTime < b.enqueueTime)) :
    (TaskEntry.lt b a = true ∧ TaskEntry.lt a b = false) ∧
    (a ∈ q → ¬ TaskEntry.canBeTop q b) ∧
    (a ∈ q → TaskEntry.queueTop q ≠ some b) := by
  have hord : a.priority.toOrdinal < b.priority.toOrdinal ∨
      (a.priority.toOrdinal = b.priority.toOrdinal ∧
       a.enqueueTime < b.enqueueTime) := by
    rcases h with h | ⟨hp, ht⟩
    · exact Or.inl h
    · exact Or.inr ⟨by rw [hp], ht⟩
  have hba : TaskEntry.lt b a = true := by
    rw [TaskEntry.lt_iff_ord]; omega
  have hab : TaskEntry.lt a b = false := by
    rw [TaskEntry.lt_eq_false_iff]; omega
  refine ⟨⟨hba, hab⟩, ?_, ?_⟩
  · rintro ha ⟨_, hall⟩
    have := hall a ha
    rw [this] at hba
    exact Bool.false_ne_true hba
  · intro ha htop
    have hcb := TaskEntry.queueTop_canBeTop q b htop
    have := hcb.2 a ha
    rw [this] at hba
    exact Bool.false_ne_true hba

/-- Closed check of `taskEntry_dispatch_order`: a HIGH entry enqueued later
beats a NORMAL entry enqueued earlier (testable property P4), and within
NORMAL the earlier timestamp wins (P5). -/
theorem taskEntry_dispatch_order_witness :
    TaskEntry.lt (⟨0, TaskPriority.NORMAL, 0, "B"⟩ : TaskEntry)
        ⟨1, TaskPriority.HIGH, 1, "A"⟩ = true ∧
    TaskEntry.queueTop
        [⟨0, TaskPriority.NORMAL, 0, "B"⟩, ⟨1, TaskPriority.HIGH, 1, "A"⟩] ≠
      some ⟨0, TaskPriority.NORMAL, 0, "B"⟩ ∧
    TaskEntry.queueTop
        [⟨2, TaskPriority.NORMAL, 3, "C"⟩, ⟨3, TaskPriority.NORMAL, 4, "D"⟩] ≠
      some ⟨3, TaskPriority.NORMAL, 4, "D"⟩ :=
  ⟨((taskEntry_dispatch_order ⟨1, TaskPriority.HIGH, 1, "A"⟩
      ⟨0, TaskPriority.NORMAL, 0, "B"⟩ [] (Or.inl (by decide))).1).1,
   (taskEntry_dispatch_order ⟨1, TaskPriority.HIGH, 1, "A"⟩
      ⟨0, TaskPriority.NORMAL, 0, "B"⟩
      [⟨0, TaskPriority.NORMAL, 0, "B"⟩, ⟨1, TaskPriority.HIGH, 1, "A"⟩]
      (Or.inl (by decide))).2.2 (by simp),
   (taskEntry_dispatch_order ⟨2, TaskPriority.NORMAL, 3, "C"⟩
      ⟨3, TaskPriority.NORMAL, 4, "D"⟩
      [⟨2, TaskPriority.NORMAL, 3, "C"⟩, ⟨3, TaskPriority.NORMAL, 4, "D"⟩]
      (Or.inr ⟨rfl, by decide⟩)).2.2 (by simp)⟩

/-- Both `Connection` constructors build well-formed connections. -/
theorem Connection.mk_wf (id : Nat) :
    (Connection.mkSimple id).wf ∧ (Connection.mkData id).wf :=
  ⟨⟨fun h => Bool.noConfusion h, fun _ => rfl⟩,
   ⟨fun _ => rfl, fun h => Bool.noConfusion h⟩⟩

/-- A connected, well-formed connection invoked without arguments fires:
the data slot with an empty pack, otherwise the simple slot. -/
theorem Connection.callNoArgs_eq (c : Connection)
    (hc : c.m_connected = true) (hwf : c.wf) :
    c.callNoArgs = some (if c.m_takesArguments then
      Invocation.data c.id ⟨[]⟩ else Invocation.simple c.id) := by
  unfold Connection.callNoArgs
  rw [if_pos hc]
  by_cases ht : c.m_takesArguments = true
  · rw [if_pos ht, if_pos ht]
  · have ht0 : c.m_takesArguments = false := by
      cases h : c.m_takesArguments
      · rfl
      · exact absurd h ht
    rw [if_neg (by simp [ht0]), if_pos (hwf.2 ht0),
        if_neg (by simp [ht0])]

/-- A connected, well-formed connection invoked with arguments fires: the
data slot with those arguments, otherwise the simple slot (ignoring
them). -/
theorem Connection.callWithArgs_eq (c : Connection) (args : ArgumentPack)
    (hc : c.m_connected = true) (hwf : c.wf) :
    c.callWithArgs args = some (if c.m_takesArguments then
      Invocation.data c.id args else Invocation.simple c.id) := by
  unfold Connection.callWithArgs
  rw [if_pos hc]
  by_cases ht : c.m_takesArguments = true
  · rw [if_pos (by simp [ht, hwf.1 ht]), if_pos ht]
  · have ht0 : c.m_takesArguments = false := by
      cases h : c.m_takesArguments
      · rfl
      · exact absurd h ht
    rw [if_neg (by simp [ht0]), if_pos (hwf.2 ht0),
        if_neg (by simp [ht0])]

/-- `filterMap` collapses to `map` when the partial function is total on
the list. -/
theorem filterMap_eq_map_of_forall {α β : Type} {f : α → Option β}
    {g : α → β} (l : List α) (h : ∀ a ∈ l, f a = some (g a)) :
    l.filterMap f = l.map g := by
  induction l with
  | nil => simp
  | cons x xs ih =>
    rw [List.filterMap_cons, h x (List.mem_cons_self x xs), List.map_cons,
        ih (fun a ha => h a (List.mem_cons_of_mem x ha))]

/-- C3: on a Signal holding connections c1..cN in registration order, all
still connected and all with their strong handles held (every weak
reference promotes), a single-threaded `emit()` — with or without an
argument payload, under either sync policy — performs exactly the N
callback invocations, in registration order. -/
theorem signal_emit_registration_order (ws : List WeakConnection)
    (policy : SyncPolicy) (args : ArgumentPack)
    (h : ∀ w ∈ ws, w.alive = true ∧ w.conn.m_connected = true ∧ w.conn.wf) :
    Signal.emitNoArgs ⟨ws⟩ policy =
      ws.map (fun w =>
        if w.conn.m_takesArguments then Invocation.data w.conn.id ⟨[]⟩
        else Invocation.simple w.conn.id) ∧
    Signal.emitWithArgs ⟨ws⟩ args policy =
      ws.map (fun w =>
        if w.conn.m_takesArguments then Invocation.data w.conn.id args
        else Invocation.simple w.conn.id) := by
  have hfilter : ws.filter (fun w => w.alive && w.conn.m_connected) = ws := by
    rw [List.filter_eq_self]
    intro w hw
    rcases h w hw with ⟨ha, hc, _⟩
    simp [ha, hc]
  have hactive : Signal.getActiveConnections ⟨ws⟩ =
      ws.map (fun w => w.conn) := by
    unfold Signal.getActiveConnections
    rw [hfilter]
  constructor
  · unfold Signal.emitNoArgs
    rw [hactive]
    have : ∀ w ∈ ws, Connection.callNoArgs w.conn =
        some (if w.conn.m_takesArguments then Invocation.data w.conn.id ⟨[]⟩
              else Invocation.simple w.conn.id) := by
      intro w hw
      rcases h w hw with ⟨_, hc, hwf⟩
      exact Connection.callNoArgs_eq w.conn hc hwf
    cases policy <;>
      · dsimp only
        rw [List.filterMap_map]
        exact filterMap_eq_map_of_forall ws this
  · unfold Signal.emitWithArgs
    rw [hactive]
    have : ∀ w ∈ ws, Connection.callWithArgs w.conn args =
        some (if w.conn.m_takesArguments then Invocation.data w.conn.id args
              else Invocation.simple w.conn.id) := by
      intro w hw
      rcases h w hw with ⟨_, hc, hwf⟩
      exact Connection.callWithArgs_eq w.conn args hc hwf
    cases policy <;>
      · dsimp only
        rw [List.filterMap_map]
        exact filterMap_eq_map_of_forall ws this

/-- Closed check of `signal_emit_registration_order` on three connections
(simple, data, simple) registered in that order. -/
theorem signal_emit_registration_order_witness :
    Signal.emitNoArgs
        ⟨[⟨Connection.mkSimple 0, true⟩, ⟨Connection.mkData 1, true⟩,
          ⟨Connection.mkSimple 2, true⟩]⟩ SyncPolicy.direct =
      [Invocation.simple 0, Invocation.data 1 ⟨[]⟩, Invocation.simple 2] :=
  (signal_emit_registration_order
    [⟨Connection.mkSimple 0, true⟩, ⟨Connection.mkData 1, true⟩,
     ⟨Connection.mkSimple 2, true⟩] SyncPolicy.direct ⟨[]⟩
    (by decide)).1.trans (by decide)

/-- After `disconnect()` the connected flag is down, whatever it was. -/
theorem Connection.disconnect_connected (c : Connection) :
    (c.disconnect).m_connected = false := by
  unfold Connection.disconnect
  by_cases h : c.m_connected = true
  · rw [if_pos h]
  · rw [if_neg h]
    cases hc : c.m_connected
    · rfl
    · exact absurd hc h

/-- C4: `disconnect()` is idempotent — a second call finds the
compare-and-swap already spent and changes nothing, so calling it twice
leaves exactly the state of calling it once — and after `disconnect()`,
every subsequent `emit()` (with or without payload) on a Signal containing
that connection performs exactly the invocations it would perform without
the connection: the disconnected callback is never invoked. -/
theorem connection_disconnect_idempotent (c : Connection)
    (pre post : List WeakConnection) (alive : Bool) (args : ArgumentPack)
    (policy : SyncPolicy) :
    (c.disconnect.disconnect = c.disconnect) ∧
    (c.m_connected = false → c.disconnect = c) ∧
    (Signal.emitWithArgs ⟨pre ++ ⟨c.disconnect, alive⟩ :: post⟩ args policy =
       Signal.emitWithArgs ⟨pre ++ post⟩ args policy) ∧
    (Signal.emitNoArgs ⟨pre ++ ⟨c.disconnect, alive⟩ :: post⟩ policy =
       Signal.emitNoArgs ⟨pre ++ post⟩ policy) := by
  have hdis : (c.disconnect).m_connected = false :=
    Connection.disconnect_connected c
  have hfilter :
      (pre ++ ⟨c.disconnect, alive⟩ :: post).filter
          (fun w => w.alive && w.conn.m_connected) =
        (pre ++ post).filter (fun w => w.alive && w.conn.m_connected) := by
    rw [List.filter_append, List.filter_cons, List.filter_append]
    have : (alive && (c.disconnect).m_connected) = false := by
      rw [hdis, Bool.and_false]
    simp only [this]
    rw [if_neg (by simp)]
  refine ⟨?_, ?_, ?_, ?_⟩
  · unfold Connection.disconnect
    by_cases h : c.m_connected = true
    · rw [if_pos h]
      dsimp only
      rw [if_neg (by simp)]
    · rw [if_neg h, if_neg h]
  · intro h
    unfold Connection.disconnect
    rw [if_neg (by simp [h])]
  · unfold Signal.emitWithArgs Signal.getActiveConnections
    rw [hfilter]
  · unfold Signal.emitNoArgs Signal.getActiveConnections
    rw [hfilter]

/-- Closed check of `connection_disconnect_idempotent`: disconnecting a
live data connection twice equals disconnecting it once, a dead connection
is untouched, and an emit on a signal holding the disconnected connection
next to a live simple connection invokes only the live one. -/
theorem connection_disconnect_idempotent_witness :
    ((Connection.mkData 5).disconnect.disconnect =
       (Connection.mkData 5).disconnect) ∧
    Signal.emitNoArgs
        ⟨[⟨(Connection.mkData 5).disconnect, true⟩,
          ⟨Connection.mkSimple 6, true⟩]⟩ SyncPolicy.direct =
      [Invocation.simple 6] := by
  have h := connection_disconnect_idempotent (Connection.mkData 5) []
    [⟨Connection.mkSimple 6, true⟩] true ⟨[]⟩ SyncPolicy.direct
  exact ⟨h.1, h.2.2.2.trans (by decide)⟩

/-- C10: `Signal::connect(instance, method)` with a null instance or a null
method — in either member-function overload — returns a null handle and
leaves the connection list unchanged, so subsequent emissions invoke
exactly the callbacks connected before the call. -/
theorem signal_connect_null_noop (s : Signal)
    (instanceNonNull methodNonNull : Bool) (id : Nat) (args : ArgumentPack)
    (policy : SyncPolicy)
    (h : instanceNonNull = false ∨ methodNonNull = false) :
    Signal.connectMemberSimple s instanceNonNull methodNonNull id =
      (none, s) ∧
    Signal.connectMemberData s instanceNonNull methodNonNull id =
      (none, s) ∧
    (Signal.connectMemberSimple s instanceNonNull methodNonNull
        id).snd.emitNoArgs policy = s.emitNoArgs policy ∧
    (Signal.connectMemberData s instanceNonNull methodNonNull
        id).snd.emitWithArgs args policy = s.emitWithArgs args policy := by
  have hcond : (!instanceNonNull || !methodNonNull) = true := by
    rcases h with h | h <;> simp [h]
  have h1 : Signal.connectMemberSimple s instanceNonNull methodNonNull id =
      (none, s) := by
    unfold Signal.connectMemberSimple
    rw [if_pos hcond]
  have h2 : Signal.connectMemberData s instanceNonNull methodNonNull id =
      (none, s) := by
    unfold Signal.connectMemberData
    rw [if_pos hcond]
  exact ⟨h1, h2, by rw [h1], by rw [h2]⟩

/-- Closed check of `signal_connect_null_noop` on a signal with one live
connection and a null method pointer. -/
theorem signal_connect_null_noop_witness :
    Signal.connectMemberData ⟨[⟨Connection.mkSimple 3, true⟩]⟩ true false 7 =
      (none, ⟨[⟨Connection.mkSimple 3, true⟩]⟩) ∧
    (Signal.connectMemberData ⟨[⟨Connection.mkSimple 3, true⟩]⟩ true false
        7).snd.emitWithArgs ⟨[ArgValue.vInt 1]⟩ SyncPolicy.direct =
      [Invocation.simple 3] := by
  have h := signal_connect_null_noop ⟨[⟨Connection.mkSimple 3, true⟩]⟩ true
    false 7 ⟨[ArgValue.vInt 1]⟩ SyncPolicy.direct (Or.inr rfl)
  exact ⟨h.2.1, h.2.2.2.trans (by decide)⟩

/-- C5 counterexample: a registry holding one signal "sig" with a single
connected data slot (id 0); a registry-level `emit("sig")` without payload
is a shape-mismatched call, yet it does not no-op — the data slot is
invoked with an empty ArgumentPack, contradicting the claim that a
shape-mismatched call performs no slot invocation. -/
theorem signalslot_shape_mismatch_counterexample :
    (SignalSlot.emitNoArgsByName
        ⟨[("sig", ⟨[⟨Connection.mkData 0, true⟩]⟩)]⟩ "sig"
        SyncPolicy.direct).invocations = [Invocation.data 0 ⟨[]⟩] ∧
    (SignalSlot.emitNoArgsByName
        ⟨[("sig", ⟨[⟨Connection.mkData 0, true⟩]⟩)]⟩ "sig"
        SyncPolicy.direct).invocations ≠ [] :=
  ⟨rfl, by decide⟩

/-- C5 (amended): a registry-level `connect(name, ...)` or `emit(name, ...)`
on an absent name fails softly — the "not found" line is logged, no slot is
invoked, no handle is produced and the registry is unchanged. A call whose
argument shape does not match the slot, however, is not a no-op: a
no-payload emit invokes a data slot with an empty ArgumentPack, and a
payload-carrying emit invokes a simple slot ignoring the payload. -/
theorem signalslot_soft_fail_amended (r : SignalSlot) (name : String)
    (args : ArgumentPack) (policy : SyncPolicy) (id : Nat)
    (takesArgumentPack : Bool) (habsent : r.getSignal name = none) :
    ((r.emitNoArgsByName name policy).invocations = [] ∧
     (r.emitNoArgsByName name policy).notFoundLogged = true ∧
     (r.emitWithArgsByName name args policy).invocations = [] ∧
     (r.emitWithArgsByName name args policy).notFoundLogged = true ∧
     (r.connectByName name id takesArgumentPack).handle = none ∧
     (r.connectByName name id takesArgumentPack).registry = r ∧
     (r.connectByName name id takesArgumentPack).notFoundLogged = true) ∧
    ((Connection.mkData id).callNoArgs = some (Invocation.data id ⟨[]⟩) ∧
     (Connection.mkSimple id).callWithArgs args =
       some (Invocation.simple id)) := by
  refine ⟨?_, rfl, rfl⟩
  unfold SignalSlot.emitNoArgsByName SignalSlot.emitWithArgsByName
    SignalSlot.connectByName
  rw [habsent]
  exact ⟨rfl, rfl, rfl, rfl, rfl, rfl, rfl⟩

/-- Closed check of `signalslot_soft_fail_amended` on an empty registry. -/
theorem signalslot_soft_fail_amended_witness :
    (SignalSlot.emitNoArgsByName ⟨[]⟩ "missing"
        SyncPolicy.direct).invocations = [] ∧
    (SignalSlot.emitNoArgsByName ⟨[]⟩ "missing"
        SyncPolicy.direct).notFoundLogged = true ∧
    (SignalSlot.connectByName ⟨[]⟩ "missing" 0 true).handle = none := by
  have h := signalslot_soft_fail_amended ⟨[]⟩ "missing" ⟨[]⟩
    SyncPolicy.direct 0 true rfl
  exact ⟨h.1.1, h.1.2.1, h.1.2.2.2.2.1⟩

/-- C1 counterexample: a Runnable whose `runImpl` throws
`std::runtime_error("boom")`, run synchronously from the idle state. The
claim says `run()` re-raises the exception to its caller; in the code both
catch clauses swallow it — `run()` returns normally (no propagated error)
and even emits "finished" after the "error" emission. -/
theorem runnable_run_no_rethrow_counterexample :
    (Runnable.run ⟨false, false⟩
        (WorkResult.throwStd "boom")).propagatedError = none ∧
    (Runnable.run ⟨false, false⟩ (WorkResult.throwStd "boom")).emissions =
      [⟨"started", none⟩, ⟨"error", some "boom"⟩, ⟨"finished", none⟩] :=
  ⟨rfl, rfl⟩

/-- C1 (amended): for every Runnable whose work function throws — a
`std::exception` or anything else — a synchronous `run()` from the idle
state marks the task not-running and emits the "error" signal carrying the
error description, so "error" handlers fire before `run()` returns; but the
exception is swallowed, not re-raised: `run()` returns normally to its
caller and additionally emits "finished" after the "error" emission. -/
theorem runnable_run_error_amended (st : RunnableState) (what : String)
    (h : st.m_isRunning = false) :
    ((Runnable.run st (WorkResult.throwStd what)).state.m_isRunning = false ∧
     (Runnable.run st (WorkResult.throwStd what)).emissions =
       [⟨"started", none⟩, ⟨"error", some what⟩, ⟨"finished", none⟩] ∧
     (Runnable.run st (WorkResult.throwStd what)).propagatedError = none) ∧
    ((Runnable.run st WorkResult.throwUnknown).state.m_isRunning = false ∧
     (Runnable.run st WorkResult.throwUnknown).emissions =
       [⟨"started", none⟩,
        ⟨"error", some "Unknown exception during task execution"⟩,
        ⟨"finished", none⟩] ∧
     (Runnable.run st WorkResult.throwUnknown).propagatedError = none) := by
  unfold Runnable.run
  rw [if_neg (by simp [h]), if_neg (by simp [h])]
  exact ⟨⟨rfl, rfl, rfl⟩, ⟨rfl, rfl, rfl⟩⟩

/-- Closed check of `runnable_run_error_amended` at the idle state with an
unknown (non-std) exception. -/
theorem runnable_run_error_amended_witness :
    (Runnable.run ⟨false, false⟩ WorkResult.throwUnknown).emissions =
      [⟨"started", none⟩,
       ⟨"error", some "Unknown exception during task execution"⟩,
       ⟨"finished", none⟩] ∧
    (Runnable.run ⟨false, false⟩
        WorkResult.throwUnknown).propagatedError = none :=
  ⟨(runnable_run_error_amended ⟨false, false⟩ "x" rfl).2.2.1,
   (runnable_run_error_amended ⟨false, false⟩ "x" rfl).2.2.2⟩

/-- C6 counterexample: an If task with both branches registered whose
predicate throws a non-`std::exception` value. The claim says such a throw
is caught by a catch-all boundary and reported via an "error" emission;
`If::execute` has only a `catch (const std::exception&)` clause, so the
throw escapes `execute()` to the caller, no "error" (and no "finished") is
emitted, and only "started" was emitted before the escape. -/
theorem if_execute_nonstd_propagates_counterexample :
    (If.execute true true true true
        CondOutcome.throwUnknown).propagatedNonStd = true ∧
    (If.execute true true true true CondOutcome.throwUnknown).events =
      [("started", [])] ∧
    (If.execute true true true true
        CondOutcome.throwUnknown).thenBranchInvoked = false ∧
    (If.execute true true true true
        CondOutcome.throwUnknown).elseBranchInvoked = false :=
  ⟨rfl, rfl, rfl, rfl⟩

/-- C6 (amended): for every If task and predicate failure, a thrown
`std::exception` is caught, reported through an "error" emission carrying
"Error in If task: " plus the description, does not propagate, and skips
both branches (the trailing "finished" still fires); but there is no
catch-all in `If::execute`, so a non-`std::exception` throw from the
predicate propagates to the caller uncaught — still with neither branch
invoked and no "error" emission. -/
theorem if_execute_predicate_throw_amended
    (hasThen hasElse thenInvocable elseInvocable : Bool) (what : String) :
    (If.execute hasThen hasElse thenInvocable elseInvocable
        (CondOutcome.throwStd what) =
      { events := [("started", []),
                   ("error",
                     [ArgValue.vString ("Error in If task: " ++ what)]),
                   ("finished", [])],
        thenBranchInvoked := false,
        elseBranchInvoked := false,
        propagatedNonStd := false }) ∧
    (If.execute hasThen hasElse thenInvocable elseInvocable
        CondOutcome.throwUnknown =
      { events := [("started", [])],
        thenBranchInvoked := false,
        elseBranchInvoked := false,
        propagatedNonStd := true }) :=
  ⟨rfl, rfl⟩

/-- C8: the counter round-trip scenario of testable property P7, on the
counter constructed with initial = 5, min = 0, max = 10 (`counterP7`):
`setValue(20)` returns false, leaves the value at 5 and emits exactly one
warning; `increment(10)` clamps to 10 and emits "limitReached" with
isMinimum = false (after the "valueChanged" pair); `reset()` then restores
5, emits "reset" and — because the pre-reset value 10 differs from 5 — a
"valueChanged" emission; while a `reset()` with the value already at 5
emits "reset" alone, with no "valueChanged". -/
theorem counter_round_trip_scenario :
    (Counter.create 5 (some 0) (some 10)).snd = [] ∧
    counterP7.m_value = 5 ∧
    (counterP7.setValue 20).fst = false ∧
    (counterP7.setValue 20).snd.fst.m_value = 5 ∧
    (counterP7.setValue 20).snd.snd =
      [("warn",
        [ArgValue.vString "Value 20 is outside allowed range (min: 0, max: 10)"])] ∧
    (counterP7.increment 10).fst = 10 ∧
    (counterP7.increment 10).snd.fst.m_value = 10 ∧
    (counterP7.increment 10).snd.snd =
      [("valueChanged", [ArgValue.vInt 5, ArgValue.vInt 10]),
       ("log", [ArgValue.vString "Counter value changed from 5 to 10"]),
       ("limitReached", [ArgValue.vBool false, ArgValue.vInt 10]),
       ("log", [ArgValue.vString "Counter reached maximum value: 10"])] ∧
    ((counterP7.increment 10).snd.fst.reset).fst = 5 ∧
    ((counterP7.increment 10).snd.fst.reset).snd.fst.m_value = 5 ∧
    ((counterP7.increment 10).snd.fst.reset).snd.snd =
      [("reset", []),
       ("valueChanged", [ArgValue.vInt 10, ArgValue.vInt 5]),
       ("log", [ArgValue.vString "Counter value changed from 10 to 5"])] ∧
    (counterP7.reset).snd.snd = [("reset", [])] :=
  ⟨rfl, rfl, rfl, rfl, rfl, rfl, rfl, rfl, rfl, rfl, rfl, rfl⟩

/-- C9: constructing a Counter with an initial value outside the configured
bounds emits exactly one warning, stores the violated bound (the minimum
when below it, otherwise the maximum when above it) as the current value,
and overwrites the remembered initial value with that clamped value — so a
later `reset()` returns the clamped value, not the originally supplied
one. -/
theorem counter_create_clamps (initialValue : Int)
    (minValue maxValue : Option Int)
    (h : Counter.isInRange ⟨initialValue, initialValue, minValue, maxValue⟩
           initialValue = false) :
    ((Counter.create initialValue minValue maxValue).snd =
      [("warn",
        [ArgValue.vString
          (Counter.rangeWarning "Initial value " initialValue minValue
            maxValue)])]) ∧
    (∀ m, minValue = some m → initialValue < m →
      (Counter.create initialValue minValue maxValue).fst.m_value = m) ∧
    (∀ M, maxValue = some M → initialValue > M →
      (∀ m, minValue = some m → m ≤ initialValue) →
      (Counter.create initialValue minValue maxValue).fst.m_value = M) ∧
    ((Counter.create initialValue minValue maxValue).fst.m_initialValue =
      (Counter.create initialValue minValue maxValue).fst.m_value) ∧
    (((Counter.create initialValue minValue maxValue).fst.reset).fst =
      (Counter.create initialValue minValue maxValue).fst.m_value) := by
  unfold Counter.create
  rw [if_neg (by simp [h])]
  refine ⟨rfl, ?_, ?_, rfl, rfl⟩
  · intro m hm hlt
    subst hm
    dsimp only
    rw [if_pos hlt]
  · intro M hM hgt hge
    subst hM
    cases hmin : minValue with
    | none =>
        subst hmin
        dsimp only
        rw [if_pos hgt]
    | some m =>
        subst hmin
        have hnot : ¬ (initialValue < m) := not_lt.mpr (hge m rfl)
        dsimp only
        rw [if_neg hnot, if_pos hgt]

/-- Closed check of `counter_create_clamps`: initial 20 with bounds
[0, 10] is stored as 10, the remembered initial value becomes 10, reset
yields 10, and the warning is emitted. -/
theorem counter_create_clamps_witness :
    (Counter.create 20 (some 0) (some 10)).fst.m_value = 10 ∧
    (Counter.create 20 (some 0) (some 10)).fst.m_initialValue = 10 ∧
    ((Counter.create 20 (some 0) (some 10)).fst.reset).fst = 10 ∧
    (Counter.create 20 (some 0) (some 10)).snd =
      [("warn",
        [ArgValue.vString
          "Initial value 20 is outside allowed range (min: 0, max: 10)"])] := by
  have h := counter_create_clamps 20 (some 0) (some 10) (by decide)
  have hv : (Counter.create 20 (some 0) (some 10)).fst.m_value = 10 :=
    h.2.2.1 10 rfl (by decide)
      (fun m hm => by injection hm with hmm; omega)
  refine ⟨hv, ?_, ?_, ?_⟩
  · rw [h.2.2.2.1, hv]
  · rw [h.2.2.2.2, hv]
  · rw [h.1]
    rfl

end TaskLib
